import Mathlib

/-!
Verification of Maestro's process-spawn argument builder
(`src/main/ipc/handlers/process.ts`, the `process:spawn` handler), the ACP
protocol adapter (`acpUpdateToParseEvent`, `mapToolStatus`, `extractText`),
the stream-json result extraction of the onboarding conversation manager
(`extractResultFromStreamJson`), and session kill behaviour.

Machine-level conventions: optional JS values are `Option`; JS truthiness of
an optional string ("" and undefined are falsy) is `truthyStr`; stores are
association lists looked up by key with a fallback default.
-/

namespace Maestro

/-- JS truthiness of an optional string: `undefined` and `""` are falsy. -/
def truthyStr : Option String → Bool
  | some s => !s.isEmpty
  | none => false

/-- JS truthiness of an optional boolean: `undefined` is falsy. -/
def truthyBool : Option Bool → Bool
  | some b => b
  | none => false

/-- A user-configurable agent option: key, default value, and an optional
argument-building function (`agent.configOptions` entries read by the spawn
handler). Config values are modelled as strings. -/
structure ConfigOption where
  key : String
  default : String
  argBuilder : Option (String → List String)

/-- The fields of the static agent definition that the `process:spawn`
handler reads (the AgentDescriptor of the spec). -/
structure AgentDescriptor where
  batchModePrefix : Option (List String)
  jsonOutputArgs : Option (List String)
  resumeArgs : Option (String → List String)
  readOnlyArgs : Option (List String)
  modelArgs : Option (String → List String)
  configOptions : Option (List ConfigOption)
  requiresPty : Option Bool

/-- The `process:spawn` request payload (the fields the handler reads). -/
structure SpawnConfig where
  sessionId : String
  toolType : String
  cwd : String
  command : String
  args : List String
  prompt : Option String := none
  shell : Option String := none
  agentSessionId : Option String := none
  readOnlyMode : Option Bool := none
  modelId : Option String := none

/-- The persisted per-agent configuration store: toolType → (key → value). -/
abbrev AgentConfigs := List (String × List (String × String))

/-- The argv construction of the `process:spawn` handler, transcribed from
`registerProcessHandlers` in `src/main/ipc/handlers/process.ts`: starting
from the request's base args, conditionally prepend the batch-mode prefix
(when a prompt is present), append JSON-output flags (unless one already
occurs in the args built so far), then resume, read-only and model
fragments, and finally one fragment per config option with an argument
builder, resolving each value from the stored config else the default. -/
def buildFinalArgs (agent : Option AgentDescriptor) (configs : AgentConfigs)
    (config : SpawnConfig) : List String :=
  let finalArgs := config.args
  let finalArgs :=
    match agent with
    | none => finalArgs
    | some a =>
      let finalArgs :=
        match a.batchModePrefix with
        | some pre => if truthyStr config.prompt then pre ++ finalArgs else finalArgs
        | none => finalArgs
      let finalArgs :=
        match a.jsonOutputArgs with
        | some jsonArgs =>
          if finalArgs.any (fun arg => jsonArgs.contains arg) then finalArgs
          else finalArgs ++ jsonArgs
        | none => finalArgs
      let finalArgs :=
        match config.agentSessionId, a.resumeArgs with
        | some tok, some f => if tok.isEmpty then finalArgs else finalArgs ++ f tok
        | _, _ => finalArgs
      let finalArgs :=
        if truthyBool config.readOnlyMode then
          match a.readOnlyArgs with
          | some ro => finalArgs ++ ro
          | none => finalArgs
        else finalArgs
      let finalArgs :=
        match config.modelId, a.modelArgs with
        | some m, some f => if m.isEmpty then finalArgs else finalArgs ++ f m
        | _, _ => finalArgs
      finalArgs
  match agent with
  | none => finalArgs
  | some a =>
    match a.configOptions with
    | some opts =>
      let agentConfig := (configs.lookup config.toolType).getD []
      opts.foldl
        (fun acc o =>
          match o.argBuilder with
          | some b => acc ++ b ((agentConfig.lookup o.key).getD o.default)
          | none => acc)
        finalArgs
    | none => finalArgs

/-- The batch-mode fragment: the descriptor's prefix tokens, exactly when a
prompt is present and the descriptor declares the prefix. -/
def batchFrag (a : AgentDescriptor) (config : SpawnConfig) : List String :=
  match a.batchModePrefix with
  | some pre => if truthyStr config.prompt then pre else []
  | none => []

/-- The JSON-output fragment: the descriptor's JSON flags, unless one of them
already occurs among the batch-prefixed base args. -/
def jsonFrag (a : AgentDescriptor) (config : SpawnConfig) : List String :=
  match a.jsonOutputArgs with
  | some jsonArgs =>
    if (batchFrag a config ++ config.args).any (fun arg => jsonArgs.contains arg) then []
    else jsonArgs
  | none => []

/-- The resume fragment: the descriptor's resume generator applied to the
request's agent-session token, when both are present. -/
def resumeFrag (a : AgentDescriptor) (config : SpawnConfig) : List String :=
  match config.agentSessionId, a.resumeArgs with
  | some tok, some f => if tok.isEmpty then [] else f tok
  | _, _ => []

/-- The read-only fragment: the descriptor's read-only args when the request
asks for read-only mode. -/
def readOnlyFrag (a : AgentDescriptor) (config : SpawnConfig) : List String :=
  if truthyBool config.readOnlyMode then
    match a.readOnlyArgs with
    | some ro => ro
    | none => []
  else []

/-- The model-selection fragment. -/
def modelFrag (a : AgentDescriptor) (config : SpawnConfig) : List String :=
  match config.modelId, a.modelArgs with
  | some m, some f => if m.isEmpty then [] else f m
  | _, _ => []

/-- The value used for a config option: the stored per-agent value when
defined, else the option's default. -/
def resolveValue (agentConfig : List (String × String)) (o : ConfigOption) : String :=
  (agentConfig.lookup o.key).getD o.default

/-- The concatenated config-option fragments: one fragment per option with
an argument builder, each built from the resolved value. -/
def configFragList (agentConfig : List (String × String)) : List ConfigOption → List String
  | [] => []
  | o :: rest =>
    (match o.argBuilder with
     | some b => b (resolveValue agentConfig o)
     | none => []) ++ configFragList agentConfig rest

/-- All config-option fragments of a descriptor for a given request. -/
def configFrag (a : AgentDescriptor) (configs : AgentConfigs)
    (config : SpawnConfig) : List String :=
  match a.configOptions with
  | some opts => configFragList ((configs.lookup config.toolType).getD []) opts
  | none => []


/-! ACP protocol adapter (acp adapter module and `src/main/acp/types.ts`). -/

/-- `TextContent` of the ACP types: a plain text payload. -/
structure TextContent where
  text : String

/-- `ImageContent`: base64 data plus mime type. -/
structure ImageContent where
  data : String
  mimeType : String

/-- `ResourceLink`: a link to a resource, carrying uri and name. -/
structure ResourceLink where
  uri : String
  name : String

/-- `TextResourceContents | BlobResourceContents`: the payload of an
embedded resource, either text or base64 blob. -/
inductive ResourceContents where
  | textRes (uri : String) (text : String)
  | blobRes (uri : String) (blob : String)

/-- `EmbeddedResource`: wraps the resource contents. -/
structure EmbeddedResource where
  resource : ResourceContents

/-- `ContentBlock`: the tagged union of content block shapes. -/
inductive ContentBlock where
  | text (text : TextContent)
  | image (image : ImageContent)
  | resource_link (resourceLink : ResourceLink)
  | resource (resource : EmbeddedResource)

/-- `extractText` of the ACP adapter: text blocks yield their text, an
embedded text resource yields its text, and every other block becomes a
short placeholder string. -/
def extractText : ContentBlock → String
  | .text tc => tc.text
  | .image _ => "[image]"
  | .resource_link rl => "[resource: " ++ rl.name ++ "]"
  | .resource er =>
    match er.resource with
    | .textRes _ t => t
    | .blobRes _ _ => "[binary resource]"

/-- `mapToolStatus` of the ACP adapter: the fixed table from ACP tool-call
status to Maestro status, defaulting to "pending" (also for an absent
status). -/
def mapToolStatus : Option String → String
  | some "pending" => "pending"
  | some "in_progress" => "running"
  | some "completed" => "completed"
  | some "failed" => "error"
  | _ => "pending"

/-- `ToolCall` (tool-call start notification payload). -/
structure ToolCall where
  toolCallId : String
  title : String
  kind : Option String := none
  status : Option String := none
  rawInput : Option String := none
  rawOutput : Option String := none

/-- `ToolCallUpdate` (tool-call update notification payload; every field
but the id is optional). -/
structure ToolCallUpdate where
  toolCallId : String
  title : Option String := none
  kind : Option String := none
  status : Option String := none
  rawInput : Option String := none
  rawOutput : Option String := none

/-- `PlanEntry`: one entry of a plan update. -/
structure PlanEntry where
  content : String
  priority : String
  status : String

/-- `AvailableCommand`: a slash command advertised by the agent. -/
structure AvailableCommand where
  name : String
  description : String

/-- `SessionUpdate`: the tagged union of ACP session-update kinds. -/
inductive SessionUpdate where
  | user_message_chunk (content : ContentBlock)
  | agent_message_chunk (content : ContentBlock)
  | agent_thought_chunk (content : ContentBlock)
  | tool_call (tc : ToolCall)
  | tool_call_update (tc : ToolCallUpdate)
  | plan (entries : List PlanEntry)
  | available_commands_update (availableCommands : List AvailableCommand)
  | current_mode_update (currentModeId : String)

/-- `ParsedEvent`: Maestro's normalized event variants, as built by the ACP
adapter's constructors (the fields each object literal carries). -/
inductive ParsedEvent where
  | text (text : String) (isPartial : Bool) (sessionId : String)
  | thinking (text : String) (isPartial : Bool) (sessionId : String)
  | tool_use (toolName : String) (toolInput : Option String)
      (toolOutput : Option String) (toolId : String) (status : String)
      (sessionId : String)
  | plan (entries : List PlanEntry) (sessionId : String)
  | init (slashCommands : List String) (sessionId : String)
  | session_id (sessionId : String)
  | result (text : String) (sessionId : String) (stopReason : String)
  | error (message : String) (recoverable : Bool) (sessionId : String)

/-- `acpUpdateToParseEvent` of the ACP adapter: translate one session update
into at most one parsed event; user echoes and mode updates yield none. -/
def acpUpdateToParseEvent (sessionId : String) (update : SessionUpdate) :
    Option ParsedEvent :=
  match update with
  | .agent_message_chunk content =>
    some (.text (extractText content) true sessionId)
  | .agent_thought_chunk content =>
    some (.thinking (extractText content) true sessionId)
  | .user_message_chunk _ => none
  | .tool_call tc =>
    some (.tool_use tc.title tc.rawInput none tc.toolCallId
      (mapToolStatus tc.status) sessionId)
  | .tool_call_update tc =>
    some (.tool_use (tc.title.getD "") tc.rawInput tc.rawOutput tc.toolCallId
      (mapToolStatus tc.status) sessionId)
  | .plan entries =>
    some (.plan
      (entries.map fun e =>
        { content := e.content, status := e.status, priority := e.priority })
      sessionId)
  | .available_commands_update cmds =>
    some (.init (cmds.map fun c => c.name) sessionId)
  | .current_mode_update _ => none

/-- The wire tag of a session update (which branch of the union it is). -/
def updateKind : SessionUpdate → String
  | .user_message_chunk _ => "user_message_chunk"
  | .agent_message_chunk _ => "agent_message_chunk"
  | .agent_thought_chunk _ => "agent_thought_chunk"
  | .tool_call _ => "tool_call"
  | .tool_call_update _ => "tool_call_update"
  | .plan _ => "plan"
  | .available_commands_update _ => "available_commands_update"
  | .current_mode_update _ => "current_mode_update"

/-- The variant tag of a parsed event. -/
def eventType : ParsedEvent → String
  | .text _ _ _ => "text"
  | .thinking _ _ _ => "thinking"
  | .tool_use _ _ _ _ _ _ => "tool_use"
  | .plan _ _ => "plan"
  | .init _ _ => "init"
  | .session_id _ => "session_id"
  | .result _ _ _ => "result"
  | .error _ _ _ => "error"

/-- The spec's table from update kind to the event variant it should map
to, for the kinds that yield an event. -/
def specEventTypeFor : String → String
  | "agent_message_chunk" => "text"
  | "agent_thought_chunk" => "thinking"
  | "tool_call" => "tool_use"
  | "tool_call_update" => "tool_use"
  | "plan" => "plan"
  | "available_commands_update" => "init"
  | _ => ""

/-! Stream-json result extraction
(`src/renderer/components/Wizard/services/conversationManager.ts`). -/

/-- The shape of a parsed stream-json record that
`extractResultFromStreamJson` inspects: its `type` tag and its optional
`result` payload. -/
structure StreamMsg where
  type : String
  result : Option String

/-- The per-line loop of `extractResultFromStreamJson`: skip blank lines,
attempt each remaining line as a standalone JSON record via the given
parse function (a failed parse is ignored), and return the `result` field
of the first record whose type is "result" with a truthy result. -/
def extractResultLines (parseJson : String → Option StreamMsg) :
    List String → Option String
  | [] => none
  | line :: rest =>
    if line.trim.isEmpty then extractResultLines parseJson rest
    else
      match parseJson line with
      | none => extractResultLines parseJson rest
      | some msg =>
        if msg.type = "result" && truthyStr msg.result then msg.result
        else extractResultLines parseJson rest

/-- `extractResultFromStreamJson`: split the raw output on newlines and run
the per-line loop. -/
def extractResultFromStreamJson (parseJson : String → Option StreamMsg)
    (output : String) : Option String :=
  extractResultLines parseJson (output.splitOn "\n")

/-! Shell selection of the `process:spawn` handler. -/

/-- The shell resolution of the spawn handler: the request's shell when
truthy, else for terminal sessions the persisted `defaultShell` setting
(falling back to "zsh"), else no shell. -/
def shellToUse (settings : List (String × String)) (config : SpawnConfig) :
    Option String :=
  if truthyStr config.shell then config.shell
  else if config.toolType = "terminal" then
    some ((settings.lookup "defaultShell").getD "zsh")
  else none

/-! Session kill. -/

/-- Modelled from the spec: `ProcessManager.kill` — the process-manager
module itself is not among the sources, only its IPC callers are. Per the
spec, the registry tracks live process handles keyed by session id and
role; `kill` terminates both roles' handles of the session and they are
removed from the registry once their exit is observed, while an unknown or
already-exited session id yields a false result and no change. The registry
is modelled as the list of live entries `((sessionId, role), pid)`, and the
signal-then-observed-exit removal is collapsed into removal of the
session's entries. -/
def killSession (reg : List ((String × String) × Nat)) (sessionId : String) :
    Bool × List ((String × String) × Nat) :=
  if reg.any (fun e => e.1.1 == sessionId) then
    (true, reg.filter (fun e => !(e.1.1 == sessionId)))
  else (false, reg)

/-! Concrete descriptors, requests and parsers used in scenario theorems,
counterexamples and witnesses. -/

/-- A descriptor with JSON-output flag `--json` and a `--resume` generator. -/
def agentResume : AgentDescriptor :=
  { batchModePrefix := none, jsonOutputArgs := some ["--json"],
    resumeArgs := some fun tok => ["--resume", tok],
    readOnlyArgs := none, modelArgs := none, configOptions := none,
    requiresPty := none }

/-- A request resuming agent session "abc123" with base args `["chat"]`. -/
def resumeRequest : SpawnConfig :=
  { sessionId := "s1", toolType := "agentX", cwd := "/work", command := "agentx",
    args := ["chat"], agentSessionId := some "abc123" }

/-- A descriptor declaring only the JSON-output flag `--json`. -/
def agentJsonOnly : AgentDescriptor :=
  { batchModePrefix := none, jsonOutputArgs := some ["--json"],
    resumeArgs := none, readOnlyArgs := none, modelArgs := none,
    configOptions := none, requiresPty := none }

/-- A request whose base args already hold `--json` twice. -/
def duplicatedJsonRequest : SpawnConfig :=
  { sessionId := "s2", toolType := "toolZ", cwd := "/w", command := "toolz",
    args := ["--json", "--json"] }

/-- A request whose base args are `["run"]` (no JSON flag present). -/
def runRequest : SpawnConfig :=
  { sessionId := "s3", toolType := "toolZ", cwd := "/w", command := "toolz",
    args := ["run"] }

/-- A config option "format" with default "json" and an argument builder. -/
def formatOption : ConfigOption :=
  { key := "format", default := "json", argBuilder := some fun v => ["--format", v] }

/-- A descriptor whose only argument source is the "format" config option. -/
def agentWithOption : AgentDescriptor :=
  { batchModePrefix := none, jsonOutputArgs := none, resumeArgs := none,
    readOnlyArgs := none, modelArgs := none,
    configOptions := some [formatOption], requiresPty := none }

/-- A request for the tool type "toolY" with base args `["run"]`. -/
def optionRequest : SpawnConfig :=
  { sessionId := "s4", toolType := "toolY", cwd := "/w", command := "tooly",
    args := ["run"] }

/-- A toy line parser for witnesses: only the line "result-line" parses, to
a record of type "result" with result "hi". -/
def sampleParse : String → Option StreamMsg :=
  fun line => if line = "result-line" then some { type := "result", result := some "hi" } else none

/-- A terminal spawn request with no shell specified. -/
def terminalRequest : SpawnConfig :=
  { sessionId := "s5", toolType := "terminal", cwd := "/home", command := "zsh",
    args := [] }

/-! Helper lemmas: decomposition of the argv builder. -/

theorem foldl_config_eq (agentConfig : List (String × String))
    (opts : List ConfigOption) (init : List String) :
    opts.foldl
      (fun acc o =>
        match o.argBuilder with
        | some b => acc ++ b ((agentConfig.lookup o.key).getD o.default)
        | none => acc)
      init
      = init ++ configFragList agentConfig opts := by
  induction opts generalizing init with
  | nil => simp [configFragList]
  | cons o rest ih =>
    cases h : o.argBuilder with
    | none => simp [configFragList, h, ih]
    | some b => simp [configFragList, resolveValue, h, ih]

theorem batchStep (a : AgentDescriptor) (config : SpawnConfig) :
    (match a.batchModePrefix with
     | some pre => if truthyStr config.prompt then pre ++ config.args else config.args
     | none => config.args)
      = batchFrag a config ++ config.args := by
  cases h : a.batchModePrefix with
  | none => simp [batchFrag, h]
  | some pre => cases hp : truthyStr config.prompt <;> simp [batchFrag, h, hp]

theorem jsonStep (a : AgentDescriptor) (config : SpawnConfig) :
    (match a.jsonOutputArgs with
     | some jsonArgs =>
       if (batchFrag a config ++ config.args).any (fun arg => jsonArgs.contains arg)
         then batchFrag a config ++ config.args
         else (batchFrag a config ++ config.args) ++ jsonArgs
     | none => batchFrag a config ++ config.args)
      = batchFrag a config ++ config.args ++ jsonFrag a config := by
  cases h : a.jsonOutputArgs with
  | none => simp [jsonFrag, h]
  | some jsonArgs =>
    simp only [jsonFrag, h]
    by_cases hc :
        ((batchFrag a config ++ config.args).any fun arg => jsonArgs.contains arg) = true
    · rw [if_pos hc, if_pos hc]
      simp
    · rw [if_neg hc, if_neg hc]

theorem resumeStep (a : AgentDescriptor) (config : SpawnConfig) (cur : List String) :
    (match config.agentSessionId, a.resumeArgs with
     | some tok, some f => if tok.isEmpty then cur else cur ++ f tok
     | _, _ => cur) = cur ++ resumeFrag a config := by
  cases hs : config.agentSessionId with
  | none => cases hr : a.resumeArgs <;> simp [resumeFrag, hs, hr]
  | some tok =>
    cases hr : a.resumeArgs with
    | none => simp [resumeFrag, hs, hr]
    | some f => cases ht : tok.isEmpty <;> simp [resumeFrag, hs, hr, ht]

theorem readOnlyStep (a : AgentDescriptor) (config : SpawnConfig) (cur : List String) :
    (if truthyBool config.readOnlyMode then
       match a.readOnlyArgs with
       | some ro => cur ++ ro
       | none => cur
     else cur) = cur ++ readOnlyFrag a config := by
  cases hro : truthyBool config.readOnlyMode <;>
    cases hrd : a.readOnlyArgs <;> simp [readOnlyFrag, hro, hrd]

theorem modelStep (a : AgentDescriptor) (config : SpawnConfig) (cur : List String) :
    (match config.modelId, a.modelArgs with
     | some m, some f => if m.isEmpty then cur else cur ++ f m
     | _, _ => cur) = cur ++ modelFrag a config := by
  cases hm : config.modelId with
  | none => cases hma : a.modelArgs <;> simp [modelFrag, hm, hma]
  | some m =>
    cases hma : a.modelArgs with
    | none => simp [modelFrag, hm, hma]
    | some f => cases hme : m.isEmpty <;> simp [modelFrag, hm, hma, hme]

theorem configStep (a : AgentDescriptor) (configs : AgentConfigs)
    (config : SpawnConfig) (cur : List String) :
    (match a.configOptions with
     | some opts =>
       opts.foldl
         (fun acc o =>
           match o.argBuilder with
           | some b =>
             acc ++ b ((((configs.lookup config.toolType).getD []).lookup o.key).getD o.default)
           | none => acc)
         cur
     | none => cur) = cur ++ configFrag a configs config := by
  cases h : a.configOptions with
  | none => simp [configFrag, h]
  | some opts => simp [configFrag, h, foldl_config_eq]

theorem buildFinalArgs_eq_parts (a : AgentDescriptor) (configs : AgentConfigs)
    (config : SpawnConfig) :
    buildFinalArgs (some a) configs config
      = batchFrag a config ++ config.args ++ jsonFrag a config
        ++ resumeFrag a config ++ readOnlyFrag a config ++ modelFrag a config
        ++ configFrag a configs config := by
  simp only [buildFinalArgs]
  rw [batchStep, jsonStep, resumeStep, readOnlyStep, modelStep, configStep]

theorem filter_after_remove (reg : List ((String × String) × Nat))
    (sid other : String) (h : other ≠ sid) :
    (reg.filter fun e => !(e.1.1 == sid)).filter (fun e => e.1.1 == other)
      = reg.filter (fun e => e.1.1 == other) := by
  rw [List.filter_filter]
  apply List.filter_congr
  intro x hx
  cases hq : (x.1.1 == other) with
  | false => simp [hq]
  | true =>
    have hx1 : x.1.1 = other := by simpa using hq
    have h2 : (x.1.1 == sid) = false := by
      rw [hx1]
      simpa using h
    simp [hq, h2]

/-! The claims. -/

/-- C1: for every agent descriptor, stored config and spawn request, the
built argv is exactly the batch-mode prefix fragment (present when a prompt
is given and the descriptor declares one, so its tokens precede all base
args), then the base args, then the JSON-output flags fragment, then the
resume, read-only, model and user-config fragments, in that fixed order;
since the builder is a pure function of the descriptor, stored config and
request, the result is identical on every call with the same inputs. -/
theorem C1_argv_fixed_order (a : AgentDescriptor) (configs : AgentConfigs)
    (config : SpawnConfig) :
    buildFinalArgs (some a) configs config
      = batchFrag a config ++ config.args ++ jsonFrag a config
        ++ resumeFrag a config ++ readOnlyFrag a config ++ modelFrag a config
        ++ configFrag a configs config :=
  buildFinalArgs_eq_parts a configs config

/-- C2 counterexample: a mode-change notification (`current_mode_update`)
yields no event — `acpUpdateToParseEvent` returns none for it — refuting
that every kind in the listed set, mode-change included, maps to a
NormalizedEvent variant. -/
theorem C2_mode_change_no_event :
    acpUpdateToParseEvent "session-1" (.current_mode_update "default") = none := rfl

/-- C2 (amended): a protocol notification yields an event exactly when its
kind is agent text chunk, agent reasoning chunk, tool-call start, tool-call
update, plan, or available-commands (tool-call start and update both map to
the tool-use variant); the echo of the user's own message, mode-change, and
no other kind yields an event, and every produced event's variant follows
the kind table. -/
theorem C2_update_mapping (sessionId : String) (update : SessionUpdate) :
    ((acpUpdateToParseEvent sessionId update).isSome = true ↔
        updateKind update ∈ ["agent_message_chunk", "agent_thought_chunk",
          "tool_call", "tool_call_update", "plan", "available_commands_update"])
    ∧ (∀ e, acpUpdateToParseEvent sessionId update = some e →
        eventType e = specEventTypeFor (updateKind update)) := by
  refine ⟨?_, ?_⟩
  · cases update <;> simp [acpUpdateToParseEvent, updateKind]
  · intro e he
    cases update <;> simp only [acpUpdateToParseEvent] at he <;>
      first
        | exact Option.noConfusion he
        | (injection he with he2; subst he2; rfl)

/-- C3: the value used for every user-configurable option that has an
argument-building function resolves to the stored per-agent config value
when one is defined, else the descriptor's default, and the generated
fragments are appended after all other argv fragments, one per option in
order. (The spawn request carries no per-option explicit override, so the
override clause of the claim is vacuous.) -/
theorem C3_config_resolution (a : AgentDescriptor) (configs : AgentConfigs)
    (config : SpawnConfig) (opts : List ConfigOption) :
    a.configOptions = some opts →
      (buildFinalArgs (some a) configs config
        = batchFrag a config ++ config.args ++ jsonFrag a config
          ++ resumeFrag a config ++ readOnlyFrag a config ++ modelFrag a config
          ++ configFragList ((configs.lookup config.toolType).getD []) opts)
      ∧ (∀ (agentConfig : List (String × String)) (o : ConfigOption) (v : String),
          agentConfig.lookup o.key = some v → resolveValue agentConfig o = v)
      ∧ (∀ (agentConfig : List (String × String)) (o : ConfigOption),
          agentConfig.lookup o.key = none → resolveValue agentConfig o = o.default)
      ∧ (∀ (agentConfig : List (String × String)) (o : ConfigOption)
          (b : String → List String) (rest : List ConfigOption),
          o.argBuilder = some b →
            configFragList agentConfig (o :: rest)
              = b (resolveValue agentConfig o) ++ configFragList agentConfig rest) := by
  intro h
  refine ⟨?_, ?_, ?_, ?_⟩
  · rw [buildFinalArgs_eq_parts]
    simp [configFrag, h]
  · intro ac o v hv
    simp [resolveValue, hv]
  · intro ac o hv
    simp [resolveValue, hv]
  · intro ac o b rest hb
    simp [configFragList, hb]

/-- C3 witness: for the "format" option with stored value "yaml", the built
argv appends `--format yaml` after the base args. -/
theorem C3_config_resolution_witness :
    buildFinalArgs (some agentWithOption) [("toolY", [("format", "yaml")])] optionRequest
      = ["run", "--format", "yaml"] :=
  ((C3_config_resolution agentWithOption [("toolY", [("format", "yaml")])] optionRequest
      [formatOption] rfl).1).trans (by rfl)

/-- C4: the tool-call status map is the fixed table pending→pending,
in_progress→running, completed→completed, failed→error; an absent status
and any status string outside the table map to "pending"; as a total Lean
function it never throws. -/
theorem C4_mapToolStatus_table :
    mapToolStatus (some "pending") = "pending"
    ∧ mapToolStatus (some "in_progress") = "running"
    ∧ mapToolStatus (some "completed") = "completed"
    ∧ mapToolStatus (some "failed") = "error"
    ∧ mapToolStatus none = "pending"
    ∧ ∀ s : String,
        s ∉ (["pending", "in_progress", "completed", "failed"] : List String) →
          mapToolStatus (some s) = "pending" := by
  refine ⟨rfl, rfl, rfl, rfl, rfl, ?_⟩
  intro s hs
  simp only [List.mem_cons, List.not_mem_nil, or_false, not_or] at hs
  obtain ⟨h1, h2, h3, h4⟩ := hs
  unfold mapToolStatus
  split <;> simp_all

/-- C5 counterexample: with a descriptor declaring JSON-output flag
`--json` and base args holding `--json` twice, the built argv contains the
descriptor's JSON flag twice, refuting "the built argv never contains the
descriptor's JSON-output flags twice". -/
theorem C5_duplicate_json_cex :
    agentJsonOnly.jsonOutputArgs = some ["--json"]
    ∧ (buildFinalArgs (some agentJsonOnly) [] duplicatedJsonRequest).count "--json" = 2 :=
  ⟨rfl, rfl⟩

/-- C5 (amended): the declared JSON-output flags are appended unless some
element of the batch-prefixed base args is one of them — decided by set
membership at any position, not positionally — and when they are appended,
none of them was already present among the batch-prefixed base args, so
this step never introduces a duplicate of a flag already there. -/
theorem C5_json_membership (a : AgentDescriptor) (configs : AgentConfigs)
    (config : SpawnConfig) (jsonArgs : List String) :
    a.jsonOutputArgs = some jsonArgs →
      ((∀ x ∈ batchFrag a config ++ config.args, x ∉ jsonArgs) →
        buildFinalArgs (some a) configs config
          = batchFrag a config ++ config.args ++ jsonArgs ++ resumeFrag a config
            ++ readOnlyFrag a config ++ modelFrag a config
            ++ configFrag a configs config)
      ∧ ((∃ x ∈ batchFrag a config ++ config.args, x ∈ jsonArgs) →
        buildFinalArgs (some a) configs config
          = batchFrag a config ++ config.args ++ resumeFrag a config
            ++ readOnlyFrag a config ++ modelFrag a config
            ++ configFrag a configs config) := by
  intro h
  have hdec := buildFinalArgs_eq_parts a configs config
  constructor
  · intro hno
    have hfalse : ¬ (((batchFrag a config ++ config.args).any
        fun arg => jsonArgs.contains arg) = true) := by
      simp only [List.any_eq_true]
      rintro ⟨x, hx, hcont⟩
      exact hno x hx (by simpa using hcont)
    have hj : jsonFrag a config = jsonArgs := by
      simp only [jsonFrag, h]
      rw [if_neg hfalse]
    rw [hdec, hj]
  · intro hyes
    have htrue : (((batchFrag a config ++ config.args).any
        fun arg => jsonArgs.contains arg) = true) := by
      simp only [List.any_eq_true]
      obtain ⟨x, hx, hmem⟩ := hyes
      exact ⟨x, hx, by simpa using hmem⟩
    have hj : jsonFrag a config = [] := by
      simp only [jsonFrag, h]
      rw [if_pos htrue]
    rw [hdec, hj]
    simp

/-- C5 witness: with base args `["run"]` sharing no element with the JSON
flags, the flags are appended right after the base args. -/
theorem C5_json_membership_witness :
    buildFinalArgs (some agentJsonOnly) [] runRequest = ["run", "--json"] :=
  (((C5_json_membership agentJsonOnly [] runRequest ["--json"] rfl).1)
    (by decide)).trans (by rfl)

/-- C6: with resume token "abc123" and a descriptor whose resume generator
returns `["--resume", "abc123"]`, the built argv is the base args, then the
JSON-output flags, then exactly the fragment `["--resume", "abc123"]`. -/
theorem C6_resume_scenario :
    buildFinalArgs (some agentResume) [] resumeRequest
      = ["chat"] ++ ["--json"] ++ ["--resume", "abc123"] := rfl

/-- C7: a line on which the JSON parse fails is silently skipped by the
per-line loop — inserting it anywhere into the stream leaves the extracted
result unchanged, so a single malformed line never aborts processing and
interleaved non-JSON text does not affect the result. -/
theorem C7_malformed_line_ignored (parseJson : String → Option StreamMsg)
    (before after : List String) (line : String) :
    parseJson line = none →
      extractResultLines parseJson (before ++ line :: after)
        = extractResultLines parseJson (before ++ after) := by
  intro h
  induction before with
  | nil =>
    simp only [List.nil_append]
    rw [extractResultLines]
    by_cases ht : line.trim.isEmpty = true
    · simp [ht]
    · simp [ht, h]
  | cons l rest ih =>
    simp only [List.cons_append]
    rw [extractResultLines]
    conv_rhs => rw [extractResultLines]
    by_cases ht : l.trim.isEmpty = true
    · simp [ht, ih]
    · cases hp : parseJson l with
      | none => simp [ht, hp, ih]
      | some msg =>
        by_cases hres : (msg.type = "result" && truthyStr msg.result) = true
        · simp [ht, hp, hres]
        · simp [ht, hp, hres, ih]

/-- C7 witness: a "garbage" line that the parser rejects, interleaved
between parseable and blank lines, leaves the extraction unchanged. -/
theorem C7_malformed_line_ignored_witness :
    extractResultLines sampleParse (["", "oops"] ++ "garbage" :: ["result-line"])
      = extractResultLines sampleParse (["", "oops"] ++ ["result-line"]) :=
  C7_malformed_line_ignored sampleParse ["", "oops"] ["result-line"] "garbage" rfl

/-- C8: a plain text block and an embedded text resource yield their text
verbatim; an image, a resource link and an embedded binary resource yield
short fixed placeholder strings that do not depend on the binary payload. -/
theorem C8_extractText_placeholders :
    (∀ tc : TextContent, extractText (.text tc) = tc.text)
    ∧ (∀ uri t, extractText (.resource ⟨.textRes uri t⟩) = t)
    ∧ (∀ img : ImageContent, extractText (.image img) = "[image]")
    ∧ (∀ rl : ResourceLink,
        extractText (.resource_link rl) = "[resource: " ++ rl.name ++ "]")
    ∧ (∀ uri blob, extractText (.resource ⟨.blobRes uri blob⟩) = "[binary resource]") :=
  ⟨fun _ => rfl, fun _ _ => rfl, fun _ => rfl, fun _ => rfl, fun _ _ => rfl⟩

/-- C9: killing a session with no live registry entry returns false and
leaves the registry unchanged; every other session's entries are untouched
by a kill; and a second kill of the same session returns false and changes
nothing more, so kill is idempotent. -/
theorem C9_kill_unknown_idempotent (reg : List ((String × String) × Nat))
    (sessionId : String) :
    ((∀ e ∈ reg, e.1.1 ≠ sessionId) → killSession reg sessionId = (false, reg))
    ∧ (∀ other : String, other ≠ sessionId →
        (killSession reg sessionId).2.filter (fun e => e.1.1 == other)
          = reg.filter (fun e => e.1.1 == other))
    ∧ killSession (killSession reg sessionId).2 sessionId
        = (false, (killSession reg sessionId).2) := by
  refine ⟨?_, ?_, ?_⟩
  · intro h
    have hfalse : (reg.any fun e => e.1.1 == sessionId) = false := by
      simp only [List.any_eq_false]
      intro e he
      simpa using h e he
    simp [killSession, hfalse]
  · intro other hother
    by_cases hfound : (reg.any fun e => e.1.1 == sessionId) = true
    · simp only [killSession, hfound, if_pos]
      exact filter_after_remove reg sessionId other hother
    · simp [killSession, hfound]
  · by_cases hfound : (reg.any fun e => e.1.1 == sessionId) = true
    · have h2 : ((reg.filter fun e => !(e.1.1 == sessionId)).any
          fun e => e.1.1 == sessionId) = false := by
        simp only [List.any_eq_false]
        intro e he
        have := List.of_mem_filter he
        simpa using this
      simp [killSession, hfound, h2]
    · simp [killSession, hfound]

/-- C9 witness: killing the unknown session "b" in a registry holding only
session "a" returns false and leaves the registry as it was. -/
theorem C9_kill_unknown_witness :
    killSession [(("a", "ai"), 1)] "b" = (false, [(("a", "ai"), 1)]) :=
  (C9_kill_unknown_idempotent [(("a", "ai"), 1)] "b").1 (by decide)

/-- C10: when a spawn request specifies no shell, the shell used is the
persisted defaultShell setting (falling back to "zsh" when unset) exactly
when the tool type is "terminal"; for every other tool type the shell
stays unset. -/
theorem C10_default_shell (settings : List (String × String)) (config : SpawnConfig) :
    truthyStr config.shell = false →
      (config.toolType = "terminal" →
        shellToUse settings config
          = some ((settings.lookup "defaultShell").getD "zsh"))
      ∧ (config.toolType ≠ "terminal" → shellToUse settings config = none) := by
  intro h
  constructor
  · intro ht
    simp [shellToUse, h, ht]
  · intro ht
    simp [shellToUse, h, ht]

/-- C10 witness: a terminal request with no shell and no stored settings
resolves to the fallback shell "zsh". -/
theorem C10_default_shell_witness :
    shellToUse [] terminalRequest = some "zsh" :=
  (C10_default_shell [] terminalRequest rfl).1 rfl

end Maestro
